import Mathlib

/-!
Verification development for the altitude-crossing search code of
`SunRiseAndSet.py` and `MoonRiseAndSet.py`.

The embedding works over exact rationals: instants are Julian dates (days),
altitudes are degrees, tolerances are seconds converted to days exactly as the
source does (`tolerance.to(u.s).value / 86400.0`).  The external ephemeris is a
parameter `alt : ℚ → ℚ` giving the body's altitude at an instant; both the
vectorized grid call and the scalar `alt_at` call of the source apply this same
function.  `while` loops are embedded as fuel-indexed recursions: a run with
enough fuel to reach the loop's exit condition coincides with the Python loop.
Python exceptions are modelled with `Except`.
-/

namespace RiseSet

/-- Direction tag of a crossing event, mirroring the source's 'rise' / 'set'
string literals. -/
inductive Direction
  | rise
  | set
deriving DecidableEq

/-- Python-level exceptions relevant to the modelled code paths: `TypeError`
(a call with a missing positional argument) and `ValueError` (numpy linspace
with a negative sample count). -/
inductive PyErr
  | typeError
  | valueError
deriving DecidableEq

/-- Embeds `np.sign`: -1, 0 or 1. -/
def npSign (x : ℚ) : ℤ :=
  if x < 0 then -1 else if x = 0 then 0 else 1

/-- Embeds `np.linspace a b n`: `n` evenly spaced samples from `a` to `b`, both
endpoints included (`n = 1` gives `[a]`, `n = 0` the empty array). -/
def linspace (a b : ℚ) : ℕ → List ℚ
  | 0 => []
  | 1 => [a]
  | n + 2 => (List.range (n + 2)).map (fun i : ℕ => a + (b - a) * (i : ℚ) / ((n : ℚ) + 1))

/-- Scan of `np.argmax`: walks the remaining list with the next index `i` and
the best (index, value) so far, replacing it only on a strictly larger value,
so the first maximal element wins. -/
def argmaxAux : List ℚ → ℕ → ℕ × ℚ → ℕ × ℚ
  | [], _, best => best
  | x :: xs, i, best => argmaxAux xs (i + 1) (if best.2 < x then (i, x) else best)

/-- Run of `np.argmax` returning the (index, value) pair of the first maximum. -/
def argmaxRun : List ℚ → ℕ × ℚ
  | [] => (0, 0)
  | x :: xs => argmaxAux xs 1 (0, x)

/-- Embeds `np.argmax`: index of the first maximal element. -/
def npArgmax (l : List ℚ) : ℕ := (argmaxRun l).1

/-- First index satisfying `p`, i.e. the head of `np.where(cond)[0]` guarded by
an emptiness check, as the source uses it. -/
def firstIdxSat (p : ℚ → Bool) : List ℚ → Option ℕ
  | [] => none
  | x :: xs => if p x then some 0 else (firstIdxSat p xs).map (fun j => j + 1)

/-- The coarse ±12 h daily grid shared by the sun and moon single-day searches:
`hours = np.linspace(-12, 12, 241)`, `times = midday + hours * u.hour`,
expressed in Julian days. -/
def dailyTimes (midday : ℚ) : List ℚ :=
  (linspace (-12) 12 241).map (fun h => midday + h / 24)

/-- Embeds `_compute_sun_altitudes`: returns the (times, diffs, noon_idx) triple of
the source; `diffs` is altitude minus target at each grid sample, `noon_idx`
the argmax of the altitudes. -/
def compute_sun_altitudes (alt : ℚ → ℚ) (midday target : ℚ) :
    List ℚ × List ℚ × ℕ :=
  let times := dailyTimes midday
  let altitudes := times.map alt
  let diffs := altitudes.map (fun a => a - target)
  (times, diffs, npArgmax altitudes)

/-- Bisection loop of `_refine_crossing_time` (tolerance already converted to
days), returning the right endpoint as the source does.  `ascending = true`
moves left when the midpoint is below target, `ascending = false` moves left
when it is above.  The moonrise and moonset inline bisection loops are
letter-for-letter this loop with `ascending := true` and `false`. -/
def refineGo (alt : ℚ → ℚ) (target tolDays : ℚ) (ascending : Bool) :
    ℕ → ℚ → ℚ → ℚ
  | 0, _, r => r
  | fuel + 1, l, r =>
    if tolDays < r - l then
      let m := (l + r) / 2
      let mv := alt m - target
      let moveLeft : Bool := if ascending then decide (mv < 0) else decide (0 < mv)
      if moveLeft then refineGo alt target tolDays ascending fuel m r
      else refineGo alt target tolDays ascending fuel l m
    else r

/-- Embeds `_refine_crossing_time`: converts the tolerance from seconds to days
(`tol_days = tolerance / 86400`) and bisects. -/
def refine_crossing_time (alt : ℚ → ℚ) (target tolS : ℚ) (ascending : Bool)
    (fuel : ℕ) (l r : ℚ) : ℚ :=
  refineGo alt target (tolS / 86400) ascending fuel l r

/-- The bracket evolution of the same loop: the "final bracket" in the spec's
sense, of which `_refine_crossing_time` reports an endpoint. -/
def refineBracket (alt : ℚ → ℚ) (target tolDays : ℚ) (ascending : Bool) :
    ℕ → ℚ → ℚ → ℚ × ℚ
  | 0, l, r => (l, r)
  | fuel + 1, l, r =>
    if tolDays < r - l then
      let m := (l + r) / 2
      let mv := alt m - target
      let moveLeft : Bool := if ascending then decide (mv < 0) else decide (0 < mv)
      if moveLeft then refineBracket alt target tolDays ascending fuel m r
      else refineBracket alt target tolDays ascending fuel l m
    else (l, r)

/-- The "step left until sign change or exhausted" widening loop of sunrise /
moonrise / sunset: count `k` means indices `k-1, …, 0` are still available (the
Python loop runs `j` from `k-1` downward while `cond` holds on the current
left value). -/
def stepLeft (alt : ℚ → ℚ) (target : ℚ) (times : List ℚ) (cond : ℚ → Bool) :
    ℕ → ℚ → ℚ → ℚ × ℚ
  | 0, left, lv => (left, lv)
  | k + 1, left, lv =>
    if cond lv then
      stepLeft alt target times cond k (times.getD k 0) (alt (times.getD k 0) - target)
    else (left, lv)

/-- The "step right" widening loop of sunset / moonset: `j` counts upward while
`j < len(times)` (encoded by the remaining count) and `cond` holds on the
current right value. -/
def stepRightAux (alt : ℚ → ℚ) (target : ℚ) (times : List ℚ) (cond : ℚ → Bool) :
    ℕ → ℕ → ℚ → ℚ → ℚ × ℚ
  | 0, _, right, rv => (right, rv)
  | rem + 1, j, right, rv =>
    if cond rv then
      stepRightAux alt target times cond rem (j + 1) (times.getD j 0)
        (alt (times.getD j 0) - target)
    else (right, rv)

/-- The rise-search body shared (verbatim in the source) by `sunrise` and
`moonrise`: first morning index with diff ≥ 0, bracket with the preceding
sample, defensive step-left widening, then ascending bisection refinement.
`times`, `diffs`, `noonIdx` are the grid data of the respective function. -/
def riseSearch (alt : ℚ → ℚ) (target tolS : ℚ) (fuel : ℕ)
    (times diffs : List ℚ) (noonIdx : ℕ) : Option ℚ :=
  let morning := diffs.take (noonIdx + 1)
  match firstIdxSat (fun x => decide (0 ≤ x)) morning with
  | none => none
  | some idx =>
    let lr : ℚ × ℚ :=
      if idx = 0 then (times.getD 0 0, times.getD 1 0)
      else (times.getD (idx - 1) 0, times.getD idx 0)
    let lv := alt lr.1 - target
    match stepLeft alt target times (fun v => decide (0 < v)) idx lr.1 lv with
    | (left, lv2) =>
      if 0 < lv2 then none
      else some (refine_crossing_time alt target tolS true fuel left lr.2)

/-- The correct (sunset) variant of the set-search body: first at-or-after-noon
index with diff ≤ 0, bracket with the preceding sample, defensive step-left
and step-right widening, then descending bisection refinement. -/
def setSearch (alt : ℚ → ℚ) (target tolS : ℚ) (fuel : ℕ)
    (times diffs : List ℚ) (noonIdx : ℕ) : Option ℚ :=
  let evening := diffs.drop noonIdx
  match firstIdxSat (fun x => decide (x ≤ 0)) evening with
  | none => none
  | some relIdx =>
    if relIdx = 0 then none
    else
      let absIdx := noonIdx + relIdx
      let lv := alt (times.getD (absIdx - 1) 0) - target
      let rv := alt (times.getD absIdx 0) - target
      match stepLeft alt target times (fun v => decide (v < 0)) (absIdx - 1)
          (times.getD (absIdx - 1) 0) lv with
      | (left, lv2) =>
        if lv2 < 0 then none
        else
          match stepRightAux alt target times (fun v => decide (0 < v))
              (times.length - (absIdx + 1)) (absIdx + 1) (times.getD absIdx 0) rv with
          | (right, rv2) =>
            if 0 < rv2 then none
            else some (refine_crossing_time alt target tolS false fuel left right)

/-- Embeds `sunrise` (SunRiseAndSet.py): the rise search over the data returned by
`_compute_sun_altitudes`.  `tolS` is the tolerance in seconds. -/
def sunrise (alt : ℚ → ℚ) (midday target tolS : ℚ) (fuel : ℕ) : Option ℚ :=
  riseSearch alt target tolS fuel
    (compute_sun_altitudes alt midday target).1
    (compute_sun_altitudes alt midday target).2.1
    (compute_sun_altitudes alt midday target).2.2

/-- Embeds `sunset` (SunRiseAndSet.py): the set search over the data returned by
`_compute_sun_altitudes`. -/
def sunset (alt : ℚ → ℚ) (midday target tolS : ℚ) (fuel : ℕ) : Option ℚ :=
  setSearch alt target tolS fuel
    (compute_sun_altitudes alt midday target).1
    (compute_sun_altitudes alt midday target).2.1
    (compute_sun_altitudes alt midday target).2.2

/-- Default target altitude of `moonrise` (MoonRiseAndSet.py line 8):
`-0.816 * u.deg`. -/
def moonriseDefaultTargetAltitude : ℚ := -816/1000

/-- Default target altitude of `moonset` (MoonRiseAndSet.py line 93):
`-0.833 * u.deg`. -/
def moonsetDefaultTargetAltitude : ℚ := -833/1000

/-- Embeds `moonrise` (MoonRiseAndSet.py): the same rise search with the grid, argmax
and ascending bisection written inline in the source, over the moon's altitude
function. -/
def moonrise (alt : ℚ → ℚ) (midday target tolS : ℚ) (fuel : ℕ) : Option ℚ :=
  riseSearch alt target tolS fuel (dailyTimes midday)
    (((dailyTimes midday).map alt).map (fun a => a - target))
    (npArgmax ((dailyTimes midday).map alt))

/-- The set-search body of `moonset` (MoonRiseAndSet.py).  Unlike `sunset`'s,
its step-left widening loop body (source line 161) calls `alt_at(left)`
without the `location` argument, so executing one iteration of it raises
`TypeError`; the loop is entered exactly when `left_val < 0` and
`j = abs_idx - 2 ≥ 0`.  When `abs_idx - 2 < 0` the loop is skipped and the
`left_val < 0` re-check returns `None`. -/
def moonsetSearch (alt : ℚ → ℚ) (target tolS : ℚ) (fuel : ℕ)
    (times diffs : List ℚ) (noonIdx : ℕ) : Except PyErr (Option ℚ) :=
  let evening := diffs.drop noonIdx
  match firstIdxSat (fun x => decide (x ≤ 0)) evening with
  | none => .ok none
  | some relIdx =>
    if relIdx = 0 then .ok none
    else
      let absIdx := noonIdx + relIdx
      let lv := alt (times.getD (absIdx - 1) 0) - target
      let rv := alt (times.getD absIdx 0) - target
      if lv < 0 then
        if 2 ≤ absIdx then .error .typeError
        else .ok none
      else
        match stepRightAux alt target times (fun v => decide (0 < v))
            (times.length - (absIdx + 1)) (absIdx + 1) (times.getD absIdx 0) rv with
        | (right, rv2) =>
          if 0 < rv2 then .ok none
          else .ok (some (refine_crossing_time alt target tolS false fuel
            (times.getD (absIdx - 1) 0) right))

/-- Embeds `moonset` (MoonRiseAndSet.py): the moonset search over the ±12 h daily
grid of the moon's altitude function. -/
def moonset (alt : ℚ → ℚ) (midday target tolS : ℚ) (fuel : ℕ) :
    Except PyErr (Option ℚ) :=
  moonsetSearch alt target tolS fuel (dailyTimes midday)
    (((dailyTimes midday).map alt).map (fun a => a - target))
    (npArgmax ((dailyTimes midday).map alt))

/-- Wrapper: `moonrise` as called with its default target altitude. -/
def moonriseWithDefaultTarget (alt : ℚ → ℚ) (midday tolS : ℚ) (fuel : ℕ) :
    Option ℚ :=
  moonrise alt midday moonriseDefaultTargetAltitude tolS fuel

/-- Wrapper: `moonset` as called with its default target altitude. -/
def moonsetWithDefaultTarget (alt : ℚ → ℚ) (midday tolS : ℚ) (fuel : ℕ) :
    Except PyErr (Option ℚ) :=
  moonset alt midday moonsetDefaultTargetAltitude tolS fuel

/-- State of the `find_altitude_crossings` bisection loop, which carries the
left/right instants together with their cached altitude-minus-target values
exactly as the source's `left_val` / `right_val` locals do. -/
structure BState where
  l : ℚ
  lv : ℚ
  r : ℚ
  rv : ℚ
deriving DecidableEq

/-- Bisection loop of `find_altitude_crossings` (source lines 308-317): the
update rule is unconditionally `mid_val < 0 → left := mid, else right := mid`,
with no dependence on the bracket's direction. -/
def facBisect (alt : ℚ → ℚ) (target tolDays : ℚ) : ℕ → BState → BState
  | 0, s => s
  | fuel + 1, s =>
    if tolDays < s.r - s.l then
      let m := (s.l + s.r) / 2
      let mv := alt m - target
      if mv < 0 then facBisect alt target tolDays fuel ⟨m, mv, s.r, s.rv⟩
      else facBisect alt target tolDays fuel ⟨s.l, s.lv, m, mv⟩
    else s

/-- Source line 320: `crossing_time = right if right_val >= 0 else left`. -/
def facCrossingTime (s : BState) : ℚ := if 0 ≤ s.rv then s.r else s.l

/-- One refined event of `find_altitude_crossings` for the bracket at grid
index `idx`: bisection, endpoint choice, then the ±1-minute slope test
(1 minute = 1/1440 day). -/
def facEvent (alt : ℚ → ℚ) (target tolDays : ℚ) (fuel : ℕ)
    (times diffs : List ℚ) (idx : ℕ) : ℚ × Direction :=
  let s := facBisect alt target tolDays fuel
    ⟨times.getD idx 0, diffs.getD idx 0, times.getD (idx + 1) 0, diffs.getD (idx + 1) 0⟩
  let crossing := facCrossingTime s
  let slope := alt (crossing + 1/1440) - alt (crossing - 1/1440)
  (crossing, if 0 < slope then Direction.rise else Direction.set)

/-- Embeds `duration = (end_time - start_time).to(u.second)` of the source, for
Julian-date endpoints. -/
def facDurationS (startJd endJd : ℚ) : ℚ := (endJd - startJd) * 86400

/-- Embeds `n_steps = int(np.ceil(duration / coarse_step)) + 1` of the source. -/
def facNSteps (startJd endJd stepS : ℚ) : ℤ :=
  ⌈facDurationS startJd endJd / stepS⌉ + 1

/-- The coarse grid of `find_altitude_crossings`:
`start_time + np.linspace(0, duration, n_steps) * u.second` in Julian days. -/
def facGrid (startJd endJd stepS : ℚ) : List ℚ :=
  (linspace 0 (facDurationS startJd endJd) (facNSteps startJd endJd stepS).toNat).map
    (fun s => startJd + s / 86400)

/-- Embeds `diffs = altitudes - target_val` over the coarse grid (the vectorized
altitude computation followed by the target subtraction). -/
def facDiffs (alt : ℚ → ℚ) (startJd endJd target stepS : ℚ) : List ℚ :=
  ((facGrid startJd endJd stepS).map alt).map (fun a => a - target)

/-- Embeds `signs = np.sign(diffs)`. -/
def facSigns (alt : ℚ → ℚ) (startJd endJd target stepS : ℚ) : List ℤ :=
  (facDiffs alt startJd endJd target stepS).map npSign

/-- Embeds `sign_changes = np.where(np.diff(signs) != 0)[0]`: the adjacent index
pairs whose signs differ. -/
def facChanges (alt : ℚ → ℚ) (startJd endJd target stepS : ℚ) : List ℕ :=
  (List.range ((facGrid startJd endJd stepS).length - 1)).filter
    (fun i => decide ((facSigns alt startJd endJd target stepS).getD (i + 1) 0 ≠
      (facSigns alt startJd endJd target stepS).getD i 0))

/-- Embeds `find_altitude_crossings` (MoonRiseAndSet.py): coarse grid, sign-change
detection via `np.sign` and `np.diff`, a bisection refinement and slope test
per sign change.  A negative `n_steps` raises numpy's ValueError from
`np.linspace`; the function performs no input validation of its own. -/
def find_altitude_crossings (alt : ℚ → ℚ) (startJd endJd target stepS tolS : ℚ)
    (fuel : ℕ) : Except PyErr (List (ℚ × Direction)) :=
  if facNSteps startJd endJd stepS < 0 then .error .valueError
  else
    .ok ((facChanges alt startJd endJd target stepS).map
      (facEvent alt target (tolS / 86400) fuel (facGrid startJd endJd stepS)
        (facDiffs alt startJd endJd target stepS)))

/-! ### Helper lemmas about list access, the grids, argmax and the loops -/

theorem getD_map_of_lt {α β : Type} (f : α → β) (l : List α) (i : ℕ)
    (h : i < l.length) (dA : α) (dB : β) :
    (l.map f).getD i dB = f (l.getD i dA) := by
  simp [List.getD_eq_getElem?_getD, List.getElem?_map, List.getElem?_eq_getElem h]

theorem getD_mem_of_lt {α : Type} (l : List α) (i : ℕ) (h : i < l.length) (d : α) :
    l.getD i d ∈ l := by
  rw [List.getD_eq_getElem?_getD, List.getElem?_eq_getElem h]
  exact List.getElem_mem h

theorem getD_range (n i : ℕ) (h : i < n) (d : ℕ) : (List.range n).getD i d = i := by
  simp [List.getD_eq_getElem?_getD, List.getElem?_range h]

theorem linspace_length (a b : ℚ) (n : ℕ) : (linspace a b n).length = n := by
  match n with
  | 0 => rfl
  | 1 => rfl
  | n + 2 => simp [linspace]

theorem linspace_getD (a b : ℚ) (n i : ℕ) (h : i < n + 2) :
    (linspace a b (n + 2)).getD i 0 = a + (b - a) * (i : ℚ) / ((n : ℚ) + 1) := by
  rw [linspace, getD_map_of_lt (fun i : ℕ => a + (b - a) * (i : ℚ) / ((n : ℚ) + 1))
    (List.range (n + 2)) i (by simpa using h) 0 0, getD_range _ _ h]


theorem linspace_getD_mono (a b : ℚ) (n : ℕ) (hab : a ≤ b) {i j : ℕ}
    (hij : i ≤ j) (hj : j < n) :
    (linspace a b n).getD i 0 ≤ (linspace a b n).getD j 0 := by
  match n with
  | 0 => omega
  | 1 =>
    have hi0 : i = 0 := by omega
    have hj0 : j = 0 := by omega
    rw [hi0, hj0]
  | n + 2 =>
    rw [linspace_getD a b n i (lt_of_le_of_lt hij hj), linspace_getD a b n j hj]
    have hd : (0 : ℚ) < (n : ℚ) + 1 := by positivity
    have hnum : (b - a) * (i : ℚ) ≤ (b - a) * (j : ℚ) := by
      apply mul_le_mul_of_nonneg_left _ (by linarith)
      exact_mod_cast hij
    have := (div_le_div_iff_of_pos_right hd).mpr hnum
    linarith

theorem dailyTimes_length (midday : ℚ) : (dailyTimes midday).length = 241 := by
  simp [dailyTimes, linspace_length]

theorem dailyTimes_getD (midday : ℚ) (i : ℕ) (h : i < 241) :
    (dailyTimes midday).getD i 0 = midday + (-12 + (i : ℚ) / 10) / 24 := by
  have h241 : (241 : ℕ) = 239 + 2 := rfl
  rw [dailyTimes, getD_map_of_lt (fun h : ℚ => midday + h / 24) _ i
    (by rw [linspace_length]; exact h) 0 0, h241,
    linspace_getD (-12) 12 239 i (by omega)]
  have : (12 : ℚ) - -12 = 24 := by norm_num
  rw [this]
  have h239 : ((239 : ℕ) : ℚ) + 1 = 240 := by norm_num
  rw [h239]
  ring

theorem argmaxAux_cases (xs : List ℚ) :
    ∀ (i : ℕ) (best : ℕ × ℚ),
      argmaxAux xs i best = best ∨
        ∃ j, j < xs.length ∧ argmaxAux xs i best = (i + j, xs.getD j 0) := by
  induction xs with
  | nil => intro i best; left; rfl
  | cons x xs ih =>
    intro i best
    rw [argmaxAux]
    rcases ih (i + 1) (if best.2 < x then (i, x) else best) with h | ⟨j, hj, h⟩
    · rw [h]
      by_cases hx : best.2 < x
      · right
        exact ⟨0, by simp, by simp [hx]⟩
      · left; simp [hx]
    · right
      refine ⟨j + 1, by simpa using hj, ?_⟩
      rw [h]
      have hidx : i + 1 + j = i + (j + 1) := by omega
      rw [hidx]
      rfl

theorem argmaxAux_le (xs : List ℚ) :
    ∀ (i : ℕ) (best : ℕ × ℚ),
      best.2 ≤ (argmaxAux xs i best).2 ∧ ∀ y ∈ xs, y ≤ (argmaxAux xs i best).2 := by
  induction xs with
  | nil => intro i best; exact ⟨le_refl _, by simp⟩
  | cons x xs ih =>
    intro i best
    rw [argmaxAux]
    obtain ⟨h1, h2⟩ := ih (i + 1) (if best.2 < x then (i, x) else best)
    have hb : best.2 ≤ (if best.2 < x then (i, x) else best).2 := by
      by_cases hx : best.2 < x
      · simp only [hx, if_true]
        exact le_of_lt hx
      · simp only [hx, if_false]
        exact le_refl _
    have hx2 : x ≤ (if best.2 < x then (i, x) else best).2 := by
      by_cases hx : best.2 < x
      · simp only [hx, if_true]
        exact le_refl _
      · simp only [hx, if_false]
        exact le_of_not_lt hx
    refine ⟨le_trans hb h1, ?_⟩
    intro y hy
    rcases List.mem_cons.mp hy with rfl | hy
    · exact le_trans hx2 h1
    · exact h2 y hy

theorem npArgmax_spec (l : List ℚ) (h : l ≠ []) :
    npArgmax l < l.length ∧ ∀ y ∈ l, y ≤ l.getD (npArgmax l) 0 := by
  match l, h with
  | x :: xs, _ =>
    have hcases := argmaxAux_cases xs 1 (0, x)
    have hle := argmaxAux_le xs 1 (0, x)
    rcases hcases with hc | ⟨j, hj, hc⟩
    · have h1 : npArgmax (x :: xs) = 0 := by simp [npArgmax, argmaxRun, hc]
      refine ⟨by simp [h1], ?_⟩
      intro y hy
      rw [h1]
      rcases List.mem_cons.mp hy with rfl | hy
      · simp
      · have := hle.2 y hy
        rw [hc] at this
        simpa using this
    · have h1 : npArgmax (x :: xs) = 1 + j := by simp [npArgmax, argmaxRun, hc]
      have hget : (x :: xs).getD (npArgmax (x :: xs)) 0 = xs.getD j 0 := by
        rw [h1]
        have : 1 + j = j + 1 := by omega
        rw [this]
        rfl
      refine ⟨by rw [h1]; simp only [List.length_cons]; omega, ?_⟩
      intro y hy
      rw [hget]
      have hval : (argmaxAux xs 1 (0, x)).2 = xs.getD j 0 := by rw [hc]
      rcases List.mem_cons.mp hy with rfl | hy
      · have := hle.1
        rwa [hval] at this
      · have := hle.2 y hy
        rwa [hval] at this

theorem firstIdxSat_eq_none (p : ℚ → Bool) (l : List ℚ)
    (h : ∀ x ∈ l, p x = false) : firstIdxSat p l = none := by
  induction l with
  | nil => rfl
  | cons x xs ih =>
    rw [firstIdxSat]
    rw [h x (by simp)]
    simp only [Bool.false_eq_true, if_false]
    rw [ih (fun y hy => h y (by simp [hy]))]
    rfl

theorem firstIdxSat_head (p : ℚ → Bool) (l : List ℚ) (h : l ≠ [])
    (hp : p (l.getD 0 0) = true) : firstIdxSat p l = some 0 := by
  match l, h with
  | x :: xs, _ =>
    have : (x :: xs).getD 0 0 = x := rfl
    rw [this] at hp
    rw [firstIdxSat, hp]
    simp

theorem firstIdxSat_some_spec (p : ℚ → Bool) (l : List ℚ) (k : ℕ)
    (h : firstIdxSat p l = some k) :
    k < l.length ∧ p (l.getD k 0) = true ∧ ∀ j < k, p (l.getD j 0) = false := by
  induction l generalizing k with
  | nil => simp [firstIdxSat] at h
  | cons x xs ih =>
    rw [firstIdxSat] at h
    by_cases hx : p x
    · rw [hx] at h
      simp at h
      subst h
      exact ⟨by simp, by simpa using hx, by omega⟩
    · rw [Bool.not_eq_true] at hx
      rw [hx] at h
      simp only [Bool.false_eq_true, if_false, Option.map_eq_some'] at h
      obtain ⟨k0, hk0, rfl⟩ := h
      obtain ⟨h1, h2, h3⟩ := ih k0 hk0
      refine ⟨by simpa using Nat.add_lt_add_right h1 1, by simpa using h2, ?_⟩
      intro j hj
      match j with
      | 0 => simpa using hx
      | j + 1 =>
        have : (x :: xs).getD (j + 1) 0 = xs.getD j 0 := rfl
        rw [this]
        exact h3 j (by omega)

theorem npSign_of_pos {x : ℚ} (h : 0 < x) : npSign x = 1 := by
  rw [npSign, if_neg (by linarith), if_neg (by linarith)]

theorem npSign_of_neg {x : ℚ} (h : x < 0) : npSign x = -1 := by
  rw [npSign, if_pos h]

theorem facBisect_rv_nonneg (alt : ℚ → ℚ) (target tolDays : ℚ) (fuel : ℕ) :
    ∀ s : BState, 0 ≤ s.rv → 0 ≤ (facBisect alt target tolDays fuel s).rv := by
  induction fuel with
  | zero => intro s hs; exact hs
  | succ n ih =>
    intro s hs
    rw [facBisect]
    by_cases hw : tolDays < s.r - s.l
    · rw [if_pos hw]
      by_cases hm : alt ((s.l + s.r) / 2) - target < 0
      · simpa [hm] using ih ⟨(s.l + s.r) / 2, alt ((s.l + s.r) / 2) - target, s.r, s.rv⟩ hs
      · simpa [hm] using ih ⟨s.l, s.lv, (s.l + s.r) / 2, alt ((s.l + s.r) / 2) - target⟩
          (by simpa using le_of_not_lt (by simpa using hm))
    · rw [if_neg hw]
      exact hs

theorem facBisect_within (alt : ℚ → ℚ) (target tolDays : ℚ) (fuel : ℕ) :
    ∀ s : BState, s.l ≤ s.r →
      s.l ≤ (facBisect alt target tolDays fuel s).l ∧
      (facBisect alt target tolDays fuel s).l ≤ (facBisect alt target tolDays fuel s).r ∧
      (facBisect alt target tolDays fuel s).r ≤ s.r := by
  induction fuel with
  | zero => intro s hs; exact ⟨le_refl _, hs, le_refl _⟩
  | succ n ih =>
    intro s hs
    rw [facBisect]
    by_cases hw : tolDays < s.r - s.l
    · rw [if_pos hw]
      have hm1 : s.l ≤ (s.l + s.r) / 2 := by linarith
      have hm2 : (s.l + s.r) / 2 ≤ s.r := by linarith
      by_cases hm : alt ((s.l + s.r) / 2) - target < 0
      · rw [if_pos hm]
        obtain ⟨a, b, c⟩ := ih ⟨(s.l + s.r) / 2, alt ((s.l + s.r) / 2) - target, s.r, s.rv⟩ hm2
        exact ⟨le_trans hm1 a, b, c⟩
      · rw [if_neg hm]
        obtain ⟨a, b, c⟩ := ih ⟨s.l, s.lv, (s.l + s.r) / 2, alt ((s.l + s.r) / 2) - target⟩ hm1
        exact ⟨a, b, le_trans c hm2⟩
    · rw [if_neg hw]
      exact ⟨le_refl _, hs, le_refl _⟩

theorem sunDiffs_getD (alt : ℚ → ℚ) (midday target : ℚ) (i : ℕ) (h : i < 241) :
    (((dailyTimes midday).map alt).map (fun a => a - target)).getD i 0 =
      alt ((dailyTimes midday).getD i 0) - target := by
  rw [getD_map_of_lt (fun a => a - target) _ i
      (by rw [List.length_map, dailyTimes_length]; exact h) 0 0,
    getD_map_of_lt alt _ i (by rw [dailyTimes_length]; exact h) 0 0]

theorem dailyTimes_ne_nil (midday : ℚ) : dailyTimes midday ≠ [] := by
  intro he
  have := dailyTimes_length midday
  rw [he] at this
  simp at this

theorem dailyAlts_ne_nil (alt : ℚ → ℚ) (midday : ℚ) :
    (dailyTimes midday).map alt ≠ [] := by
  intro he
  have := congrArg List.length he
  rw [List.length_map, dailyTimes_length] at this
  simp at this

theorem sunNoon_lt (alt : ℚ → ℚ) (midday : ℚ) :
    npArgmax ((dailyTimes midday).map alt) < 241 := by
  have h := (npArgmax_spec ((dailyTimes midday).map alt) (dailyAlts_ne_nil alt midday)).1
  rwa [List.length_map, dailyTimes_length] at h

theorem sunNoon_max (alt : ℚ → ℚ) (midday : ℚ) (i : ℕ) (h : i < 241) :
    alt ((dailyTimes midday).getD i 0) ≤
      alt ((dailyTimes midday).getD (npArgmax ((dailyTimes midday).map alt)) 0) := by
  obtain ⟨hlt, hmax⟩ := npArgmax_spec ((dailyTimes midday).map alt)
    (dailyAlts_ne_nil alt midday)
  have hlen : ((dailyTimes midday).map alt).length = 241 := by
    rw [List.length_map, dailyTimes_length]
  have hmem : alt ((dailyTimes midday).getD i 0) ∈ (dailyTimes midday).map alt := by
    rw [← getD_map_of_lt alt _ i (by rw [dailyTimes_length]; exact h) 0 0]
    exact getD_mem_of_lt _ i (by rw [hlen]; exact h) 0
  have := hmax _ hmem
  rwa [getD_map_of_lt alt _ _ (by rw [dailyTimes_length]; exact sunNoon_lt alt midday) 0 0]
    at this

theorem facDurationS_nonneg {startJd endJd : ℚ} (hw : startJd ≤ endJd) :
    0 ≤ facDurationS startJd endJd := by
  rw [facDurationS]
  have : (0 : ℚ) ≤ endJd - startJd := by linarith
  positivity

theorem facNSteps_nonneg {startJd endJd stepS : ℚ} (hw : startJd ≤ endJd)
    (hs : 0 < stepS) : 0 ≤ facNSteps startJd endJd stepS := by
  rw [facNSteps]
  have h0 : (0 : ℚ) ≤ facDurationS startJd endJd / stepS :=
    div_nonneg (facDurationS_nonneg hw) (le_of_lt hs)
  have := Int.ceil_nonneg h0
  omega

theorem facGrid_length (startJd endJd stepS : ℚ) :
    (facGrid startJd endJd stepS).length = (facNSteps startJd endJd stepS).toNat := by
  rw [facGrid, List.length_map, linspace_length]

theorem facGrid_getD (startJd endJd stepS : ℚ) (i : ℕ)
    (h : i < (facGrid startJd endJd stepS).length) :
    (facGrid startJd endJd stepS).getD i 0 =
      startJd + (linspace 0 (facDurationS startJd endJd)
        (facNSteps startJd endJd stepS).toNat).getD i 0 / 86400 := by
  rw [facGrid]
  rw [facGrid, List.length_map] at h
  rw [getD_map_of_lt (fun s => startJd + s / 86400) _ i h 0 0]

theorem facGrid_getD_mono {startJd endJd stepS : ℚ} (hw : startJd ≤ endJd)
    {i j : ℕ} (hij : i ≤ j) (hj : j < (facGrid startJd endJd stepS).length) :
    (facGrid startJd endJd stepS).getD i 0 ≤ (facGrid startJd endJd stepS).getD j 0 := by
  rw [facGrid_getD _ _ _ i (lt_of_le_of_lt hij hj), facGrid_getD _ _ _ j hj]
  have hlen : (facGrid startJd endJd stepS).length =
      (facNSteps startJd endJd stepS).toNat := facGrid_length _ _ _
  have hmono := linspace_getD_mono 0 (facDurationS startJd endJd)
    (facNSteps startJd endJd stepS).toNat (facDurationS_nonneg hw) hij
    (by rw [← hlen]; exact hj)
  have := (div_le_div_iff_of_pos_right (by norm_num : (0:ℚ) < 86400)).mpr hmono
  linarith

theorem facDiffs_getD (alt : ℚ → ℚ) (startJd endJd target stepS : ℚ) (i : ℕ)
    (h : i < (facGrid startJd endJd stepS).length) :
    (facDiffs alt startJd endJd target stepS).getD i 0 =
      alt ((facGrid startJd endJd stepS).getD i 0) - target := by
  rw [facDiffs, getD_map_of_lt (fun a => a - target) _ i
      (by rw [List.length_map]; exact h) 0 0,
    getD_map_of_lt alt _ i h 0 0]

theorem facDiffs_length (alt : ℚ → ℚ) (startJd endJd target stepS : ℚ) :
    (facDiffs alt startJd endJd target stepS).length =
      (facGrid startJd endJd stepS).length := by
  rw [facDiffs, List.length_map, List.length_map]

theorem facSigns_getD (alt : ℚ → ℚ) (startJd endJd target stepS : ℚ) (i : ℕ)
    (h : i < (facGrid startJd endJd stepS).length) :
    (facSigns alt startJd endJd target stepS).getD i 0 =
      npSign ((facDiffs alt startJd endJd target stepS).getD i 0) := by
  rw [facSigns, getD_map_of_lt npSign _ i
    (by rw [facDiffs_length]; exact h) 0 0]

theorem fac_eq_ok (alt : ℚ → ℚ) (startJd endJd target stepS tolS : ℚ) (fuel : ℕ)
    (hn : ¬ facNSteps startJd endJd stepS < 0) :
    find_altitude_crossings alt startJd endJd target stepS tolS fuel =
      .ok ((facChanges alt startJd endJd target stepS).map
        (facEvent alt target (tolS / 86400) fuel (facGrid startJd endJd stepS)
          (facDiffs alt startJd endJd target stepS))) := by
  rw [find_altitude_crossings, if_neg hn]

theorem refineGo_eq_refineBracket (alt : ℚ → ℚ) (target tolDays : ℚ)
    (ascending : Bool) (fuel : ℕ) :
    ∀ l r : ℚ, refineGo alt target tolDays ascending fuel l r =
      (refineBracket alt target tolDays ascending fuel l r).2 := by
  induction fuel with
  | zero => intro l r; rfl
  | succ n ih =>
    intro l r
    rw [refineGo, refineBracket]
    by_cases hw : tolDays < r - l
    · rw [if_pos hw, if_pos hw]
      by_cases hml : (if ascending then decide (alt ((l + r) / 2) - target < 0)
          else decide (0 < alt ((l + r) / 2) - target)) = true
      · simp only [hml, if_true]
        exact ih _ _
      · simp only [Bool.not_eq_true] at hml
        simp only [hml, Bool.false_eq_true, if_false]
        exact ih _ _
    · rw [if_neg hw, if_neg hw]

theorem getD_take {α : Type} (l : List α) (n k : ℕ) (d : α) (h : k < n) :
    (l.take n).getD k d = l.getD k d := by
  rw [List.getD_eq_getElem?_getD, List.getD_eq_getElem?_getD, List.getElem?_take,
    if_pos h]

theorem getD_drop {α : Type} (l : List α) (n k : ℕ) (d : α) :
    (l.drop n).getD k d = l.getD (n + k) d := by
  rw [List.getD_eq_getElem?_getD, List.getD_eq_getElem?_getD, List.getElem?_drop]

theorem sunDiffs_length (alt : ℚ → ℚ) (midday target : ℚ) :
    (((dailyTimes midday).map alt).map (fun a => a - target)).length = 241 := by
  rw [List.length_map, List.length_map, dailyTimes_length]

theorem sunDiffs_mem (alt : ℚ → ℚ) (midday target : ℚ) (x : ℚ)
    (hx : x ∈ ((dailyTimes midday).map alt).map (fun a => a - target)) :
    ∃ t ∈ dailyTimes midday, x = alt t - target := by
  obtain ⟨a, ha, rfl⟩ := List.mem_map.mp hx
  obtain ⟨t, ht, rfl⟩ := List.mem_map.mp ha
  exact ⟨t, ht, rfl⟩

theorem cs_times (alt : ℚ → ℚ) (midday target : ℚ) :
    (compute_sun_altitudes alt midday target).1 = dailyTimes midday := by
  simp only [compute_sun_altitudes]

theorem cs_diffs (alt : ℚ → ℚ) (midday target : ℚ) :
    (compute_sun_altitudes alt midday target).2.1 =
      ((dailyTimes midday).map alt).map (fun a => a - target) := by
  simp only [compute_sun_altitudes]

theorem cs_noon (alt : ℚ → ℚ) (midday target : ℚ) :
    (compute_sun_altitudes alt midday target).2.2 =
      npArgmax ((dailyTimes midday).map alt) := by
  simp only [compute_sun_altitudes]

theorem sunrise_eq_riseSearch (alt : ℚ → ℚ) (midday target tolS : ℚ) (fuel : ℕ) :
    sunrise alt midday target tolS fuel =
      riseSearch alt target tolS fuel (dailyTimes midday)
        (((dailyTimes midday).map alt).map (fun a => a - target))
        (npArgmax ((dailyTimes midday).map alt)) := by
  rw [sunrise, cs_times, cs_diffs, cs_noon]

theorem sunset_eq_setSearch (alt : ℚ → ℚ) (midday target tolS : ℚ) (fuel : ℕ) :
    sunset alt midday target tolS fuel =
      setSearch alt target tolS fuel (dailyTimes midday)
        (((dailyTimes midday).map alt).map (fun a => a - target))
        (npArgmax ((dailyTimes midday).map alt)) := by
  rw [sunset, cs_times, cs_diffs, cs_noon]

theorem riseSearch_daily_none_of_head_pos (alt : ℚ → ℚ)
    (midday target tolS : ℚ) (fuel : ℕ)
    (h : 0 < alt ((dailyTimes midday).getD 0 0) - target) :
    riseSearch alt target tolS fuel (dailyTimes midday)
      (((dailyTimes midday).map alt).map (fun a => a - target))
      (npArgmax ((dailyTimes midday).map alt)) = none := by
  have hfirst : firstIdxSat (fun x => decide (0 ≤ x))
      ((((dailyTimes midday).map alt).map (fun a => a - target)).take
        (npArgmax ((dailyTimes midday).map alt) + 1)) = some 0 := by
    apply firstIdxSat_head
    · apply List.length_pos.mp
      rw [List.length_take, sunDiffs_length]
      exact lt_min (Nat.succ_pos _) (by norm_num)
    · rw [getD_take _ _ _ _ (Nat.succ_pos _),
        sunDiffs_getD alt midday target 0 (by norm_num)]
      simp only [decide_eq_true_eq]
      linarith
  simp only [riseSearch]
  rw [hfirst]
  simp only [if_pos rfl, if_true, stepLeft]
  rw [if_pos h]

theorem riseSearch_daily_none_of_all_neg (alt : ℚ → ℚ)
    (midday target tolS : ℚ) (fuel : ℕ)
    (h : ∀ t ∈ dailyTimes midday, alt t - target < 0) :
    riseSearch alt target tolS fuel (dailyTimes midday)
      (((dailyTimes midday).map alt).map (fun a => a - target))
      (npArgmax ((dailyTimes midday).map alt)) = none := by
  have hfirst : firstIdxSat (fun x => decide (0 ≤ x))
      ((((dailyTimes midday).map alt).map (fun a => a - target)).take
        (npArgmax ((dailyTimes midday).map alt) + 1)) = none := by
    apply firstIdxSat_eq_none
    intro x hx
    obtain ⟨t, ht, rfl⟩ := sunDiffs_mem alt midday target x
      (List.take_subset _ _ hx)
    exact decide_eq_false (not_le.mpr (h t ht))
  simp only [riseSearch]
  rw [hfirst]

theorem setSearch_daily_none_of_all_pos (alt : ℚ → ℚ)
    (midday target tolS : ℚ) (fuel : ℕ)
    (h : ∀ t ∈ dailyTimes midday, 0 < alt t - target) :
    setSearch alt target tolS fuel (dailyTimes midday)
      (((dailyTimes midday).map alt).map (fun a => a - target))
      (npArgmax ((dailyTimes midday).map alt)) = none := by
  have hfirst : firstIdxSat (fun x => decide (x ≤ 0))
      ((((dailyTimes midday).map alt).map (fun a => a - target)).drop
        (npArgmax ((dailyTimes midday).map alt))) = none := by
    apply firstIdxSat_eq_none
    intro x hx
    obtain ⟨t, ht, rfl⟩ := sunDiffs_mem alt midday target x
      (List.drop_subset _ _ hx)
    exact decide_eq_false (not_le.mpr (h t ht))
  simp only [setSearch]
  rw [hfirst]

theorem setSearch_daily_none_of_noon_neg (alt : ℚ → ℚ)
    (midday target tolS : ℚ) (fuel : ℕ)
    (h : alt ((dailyTimes midday).getD (npArgmax ((dailyTimes midday).map alt)) 0)
      - target < 0) :
    setSearch alt target tolS fuel (dailyTimes midday)
      (((dailyTimes midday).map alt).map (fun a => a - target))
      (npArgmax ((dailyTimes midday).map alt)) = none := by
  have hnoon := sunNoon_lt alt midday
  have hfirst : firstIdxSat (fun x => decide (x ≤ 0))
      ((((dailyTimes midday).map alt).map (fun a => a - target)).drop
        (npArgmax ((dailyTimes midday).map alt))) = some 0 := by
    apply firstIdxSat_head
    · apply List.length_pos.mp
      rw [List.length_drop, sunDiffs_length]
      omega
    · rw [getD_drop, Nat.add_zero,
        sunDiffs_getD alt midday target _ hnoon]
      simp only [decide_eq_true_eq]
      linarith
  simp only [setSearch]
  rw [hfirst]
  simp only [if_pos rfl, if_true]

theorem stepLeft_cond_false (alt : ℚ → ℚ) (target : ℚ) (times : List ℚ)
    (cond : ℚ → Bool) (k : ℕ) (left lv : ℚ) (h : cond lv = false) :
    stepLeft alt target times cond k left lv = (left, lv) := by
  match k with
  | 0 => rfl
  | k + 1 =>
    rw [stepLeft]
    simp [h]

theorem stepLeft_preserves (alt : ℚ → ℚ) (target : ℚ) (times : List ℚ)
    (cond : ℚ → Bool) :
    ∀ (k : ℕ) (left lv : ℚ), cond lv = true →
      (∀ j, j < k → cond (alt (times.getD j 0) - target) = true) →
      cond (stepLeft alt target times cond k left lv).2 = true := by
  intro k
  induction k with
  | zero => intro left lv h _; exact h
  | succ k ih =>
    intro left lv h hall
    rw [stepLeft, if_pos h]
    exact ih _ _ (hall k (by omega)) (fun j hj => hall j (by omega))

theorem stepRightAux_preserves (alt : ℚ → ℚ) (target : ℚ) (times : List ℚ)
    (cond : ℚ → Bool) :
    ∀ (rem j : ℕ) (right rv : ℚ), cond rv = true →
      (∀ i, j ≤ i → i < j + rem → cond (alt (times.getD i 0) - target) = true) →
      cond (stepRightAux alt target times cond rem j right rv).2 = true := by
  intro rem
  induction rem with
  | zero => intro j right rv h _; exact h
  | succ rem ih =>
    intro j right rv h hall
    rw [stepRightAux, if_pos h]
    exact ih (j + 1) _ _ (hall j (le_refl j) (by omega))
      (fun i h1 h2 => hall i (by omega) (by omega))

theorem riseSearch_none_of_left_exhausted (alt : ℚ → ℚ) (target tolS : ℚ)
    (fuel : ℕ) (times diffs : List ℚ) (noonIdx idx : ℕ)
    (hfi : firstIdxSat (fun x => decide (0 ≤ x)) (diffs.take (noonIdx + 1)) =
      some idx)
    (habove : ∀ j, j ≤ idx → 0 < alt (times.getD j 0) - target) :
    riseSearch alt target tolS fuel times diffs noonIdx = none := by
  simp only [riseSearch]
  rw [hfi]
  dsimp only
  have hlv : 0 < alt (if idx = 0 then (times.getD 0 0, times.getD 1 0)
      else (times.getD (idx - 1) 0, times.getD idx 0)).1 - target := by
    by_cases h0 : idx = 0
    · rw [if_pos h0]
      exact habove 0 (by omega)
    · rw [if_neg h0]
      exact habove (idx - 1) (by omega)
  have hres := stepLeft_preserves alt target times (fun v => decide (0 < v)) idx
    ((if idx = 0 then (times.getD 0 0, times.getD 1 0)
      else (times.getD (idx - 1) 0, times.getD idx 0)).1)
    (alt (if idx = 0 then (times.getD 0 0, times.getD 1 0)
      else (times.getD (idx - 1) 0, times.getD idx 0)).1 - target)
    (decide_eq_true hlv)
    (fun j hj => decide_eq_true (habove j (by omega)))
  rw [if_pos (of_decide_eq_true hres)]

theorem setSearch_none_of_left_exhausted (alt : ℚ → ℚ) (target tolS : ℚ)
    (fuel : ℕ) (times diffs : List ℚ) (noonIdx relIdx : ℕ)
    (hfi : firstIdxSat (fun x => decide (x ≤ 0)) (diffs.drop noonIdx) =
      some relIdx)
    (hrel : relIdx ≠ 0)
    (hbelow : ∀ j, j ≤ noonIdx + relIdx - 1 → alt (times.getD j 0) - target < 0) :
    setSearch alt target tolS fuel times diffs noonIdx = none := by
  simp only [setSearch]
  rw [hfi]
  dsimp only
  rw [if_neg hrel]
  have hres := stepLeft_preserves alt target times (fun v => decide (v < 0))
    (noonIdx + relIdx - 1) (times.getD (noonIdx + relIdx - 1) 0)
    (alt (times.getD (noonIdx + relIdx - 1) 0) - target)
    (decide_eq_true (hbelow _ (le_refl _)))
    (fun j hj => decide_eq_true (hbelow j (by omega)))
  rw [if_pos (of_decide_eq_true hres)]

theorem setSearch_none_of_right_exhausted (alt : ℚ → ℚ) (target tolS : ℚ)
    (fuel : ℕ) (times diffs : List ℚ) (noonIdx relIdx : ℕ)
    (hfi : firstIdxSat (fun x => decide (x ≤ 0)) (diffs.drop noonIdx) =
      some relIdx)
    (hrel : relIdx ≠ 0)
    (hleft : ¬ alt (times.getD (noonIdx + relIdx - 1) 0) - target < 0)
    (hlen : noonIdx + relIdx < times.length)
    (habove : ∀ j, noonIdx + relIdx ≤ j → j < times.length →
      0 < alt (times.getD j 0) - target) :
    setSearch alt target tolS fuel times diffs noonIdx = none := by
  simp only [setSearch]
  rw [hfi]
  dsimp only
  rw [if_neg hrel,
    stepLeft_cond_false alt target times _ _ _ _ (decide_eq_false hleft)]
  dsimp only
  rw [if_neg hleft]
  have hres := stepRightAux_preserves alt target times (fun v => decide (0 < v))
    (times.length - (noonIdx + relIdx + 1)) (noonIdx + relIdx + 1)
    (times.getD (noonIdx + relIdx) 0)
    (alt (times.getD (noonIdx + relIdx) 0) - target)
    (decide_eq_true (habove _ (le_refl _) hlen))
    (fun i h1 h2 => decide_eq_true (habove i (by omega) (by omega)))
  rw [if_pos (of_decide_eq_true hres)]

theorem moonsetSearch_none_of_window_exhausted (alt : ℚ → ℚ) (target tolS : ℚ)
    (fuel : ℕ) (times diffs : List ℚ) (noonIdx relIdx : ℕ)
    (hfi : firstIdxSat (fun x => decide (x ≤ 0)) (diffs.drop noonIdx) =
      some relIdx)
    (hrel : relIdx ≠ 0)
    (hneg : alt (times.getD (noonIdx + relIdx - 1) 0) - target < 0)
    (hsmall : noonIdx + relIdx < 2) :
    moonsetSearch alt target tolS fuel times diffs noonIdx = Except.ok none := by
  simp only [moonsetSearch]
  rw [hfi]
  dsimp only
  rw [if_neg hrel, if_pos hneg, if_neg (by omega : ¬ 2 ≤ noonIdx + relIdx)]

theorem moonsetSearch_none_of_right_exhausted (alt : ℚ → ℚ) (target tolS : ℚ)
    (fuel : ℕ) (times diffs : List ℚ) (noonIdx relIdx : ℕ)
    (hfi : firstIdxSat (fun x => decide (x ≤ 0)) (diffs.drop noonIdx) =
      some relIdx)
    (hrel : relIdx ≠ 0)
    (hleft : ¬ alt (times.getD (noonIdx + relIdx - 1) 0) - target < 0)
    (hlen : noonIdx + relIdx < times.length)
    (habove : ∀ j, noonIdx + relIdx ≤ j → j < times.length →
      0 < alt (times.getD j 0) - target) :
    moonsetSearch alt target tolS fuel times diffs noonIdx = Except.ok none := by
  simp only [moonsetSearch]
  rw [hfi]
  dsimp only
  rw [if_neg hrel, if_neg hleft]
  have hres := stepRightAux_preserves alt target times (fun v => decide (0 < v))
    (times.length - (noonIdx + relIdx + 1)) (noonIdx + relIdx + 1)
    (times.getD (noonIdx + relIdx) 0)
    (alt (times.getD (noonIdx + relIdx) 0) - target)
    (decide_eq_true (habove _ (le_refl _) hlen))
    (fun i h1 h2 => decide_eq_true (habove i (by omega) (by omega)))
  rw [if_pos (of_decide_eq_true hres)]

theorem facBisect_width_pos (alt : ℚ → ℚ) (target tolDays : ℚ) (fuel : ℕ) :
    ∀ s : BState, s.l < s.r →
      (facBisect alt target tolDays fuel s).l <
        (facBisect alt target tolDays fuel s).r := by
  induction fuel with
  | zero => intro s hs; exact hs
  | succ n ih =>
    intro s hs
    rw [facBisect]
    by_cases hw : tolDays < s.r - s.l
    · rw [if_pos hw]
      by_cases hm : alt ((s.l + s.r) / 2) - target < 0
      · rw [if_pos hm]
        exact ih ⟨(s.l + s.r) / 2, alt ((s.l + s.r) / 2) - target, s.r, s.rv⟩
          (show (s.l + s.r) / 2 < s.r by linarith)
      · rw [if_neg hm]
        exact ih ⟨s.l, s.lv, (s.l + s.r) / 2, alt ((s.l + s.r) / 2) - target⟩
          (show s.l < (s.l + s.r) / 2 by linarith)
    · rw [if_neg hw]
      exact hs

theorem facNSteps_eq_two {startJd endJd stepS : ℚ} (hlt : startJd < endJd)
    (hstep : facDurationS startJd endJd < stepS) :
    facNSteps startJd endJd stepS = 2 := by
  have hD : 0 < facDurationS startJd endJd := by
    rw [facDurationS]
    have h0 : 0 < endJd - startJd := by linarith
    positivity
  have hs : 0 < stepS := lt_trans hD hstep
  have h1 : 0 < facDurationS startJd endJd / stepS := div_pos hD hs
  have h2 : facDurationS startJd endJd / stepS ≤ 1 := by
    rw [div_le_one hs]
    linarith
  have hceil : ⌈facDurationS startJd endJd / stepS⌉ = 1 := by
    have hle : ⌈facDurationS startJd endJd / stepS⌉ ≤ 1 :=
      Int.ceil_le.mpr (by simpa using h2)
    have hpos : 0 < ⌈facDurationS startJd endJd / stepS⌉ := Int.ceil_pos.mpr h1
    omega
  rw [facNSteps, hceil]
  norm_num

theorem facGrid_pair {startJd endJd stepS : ℚ} (hlt : startJd < endJd)
    (hstep : facDurationS startJd endJd < stepS) :
    facGrid startJd endJd stepS = [startJd, endJd] := by
  rw [facGrid, facNSteps_eq_two hlt hstep]
  norm_num [linspace, List.range_succ, show Int.toNat 2 = 2 from rfl, facDurationS]

/-! ### Claim theorems -/

/-- C9: for every midday reference, altitude function and target,
`_compute_sun_altitudes` returns a time grid of 241 evenly spaced samples
running from 12 hours before to 12 hours after midday inclusive (6-minute
= 1/240-day step), the altitude-minus-target difference at every sample, and
a `noon_idx` inside the grid at which the altitude attains its maximum over
the window. -/
theorem c9_sun_altitude_grid (alt : ℚ → ℚ) (midday target : ℚ) :
    (compute_sun_altitudes alt midday target).1.length = 241 ∧
    (compute_sun_altitudes alt midday target).2.1.length = 241 ∧
    (∀ i : Fin 241, (compute_sun_altitudes alt midday target).1.getD (i : ℕ) 0 =
      midday + (-12 + ((i : ℕ) : ℚ) / 10) / 24) ∧
    (compute_sun_altitudes alt midday target).1.getD 0 0 = midday - 1/2 ∧
    (compute_sun_altitudes alt midday target).1.getD 240 0 = midday + 1/2 ∧
    (∀ i : Fin 240, (compute_sun_altitudes alt midday target).1.getD ((i : ℕ) + 1) 0 -
      (compute_sun_altitudes alt midday target).1.getD (i : ℕ) 0 = 1/240) ∧
    (∀ i : Fin 241, (compute_sun_altitudes alt midday target).2.1.getD (i : ℕ) 0 =
      alt ((compute_sun_altitudes alt midday target).1.getD (i : ℕ) 0) - target) ∧
    (compute_sun_altitudes alt midday target).2.2 < 241 ∧
    (∀ i : Fin 241, alt ((compute_sun_altitudes alt midday target).1.getD (i : ℕ) 0) ≤
      alt ((compute_sun_altitudes alt midday target).1.getD
        ((compute_sun_altitudes alt midday target).2.2) 0)) := by
  simp only [compute_sun_altitudes]
  refine ⟨dailyTimes_length midday, ?_, ?_, ?_, ?_, ?_, ?_, sunNoon_lt alt midday, ?_⟩
  · rw [List.length_map, List.length_map, dailyTimes_length]
  · intro i
    exact dailyTimes_getD midday i i.isLt
  · rw [dailyTimes_getD midday 0 (by norm_num)]
    norm_num
    ring
  · rw [dailyTimes_getD midday 240 (by norm_num)]
    norm_num
  · intro i
    have hi1 : (i : ℕ) + 1 < 241 := by omega
    rw [dailyTimes_getD midday _ hi1, dailyTimes_getD midday _ (by omega)]
    push_cast
    ring
  · intro i
    exact sunDiffs_getD alt midday target i i.isLt
  · intro i
    exact sunNoon_max alt midday i i.isLt

/-- C10: when called without an explicit target altitude, `moonrise` compares
the Moon's altitude against −0.816 degrees while `moonset` compares it against
−0.833 degrees; the two default thresholds differ, so default rise and set
events are crossings of two different altitude levels. -/
theorem c10_default_targets_differ :
    moonriseDefaultTargetAltitude = -816/1000 ∧
    moonsetDefaultTargetAltitude = -833/1000 ∧
    moonriseDefaultTargetAltitude ≠ moonsetDefaultTargetAltitude ∧
    (∀ (alt : ℚ → ℚ) (midday tolS : ℚ) (fuel : ℕ),
      moonriseWithDefaultTarget alt midday tolS fuel =
        moonrise alt midday moonriseDefaultTargetAltitude tolS fuel) ∧
    (∀ (alt : ℚ → ℚ) (midday tolS : ℚ) (fuel : ℕ),
      moonsetWithDefaultTarget alt midday tolS fuel =
        moonset alt midday moonsetDefaultTargetAltitude tolS fuel) := by
  refine ⟨rfl, rfl, ?_, fun _ _ _ _ => rfl, fun _ _ _ _ => rfl⟩
  rw [moonriseDefaultTargetAltitude, moonsetDefaultTargetAltitude]
  norm_num

/-- C5 (amended): `_refine_crossing_time` reports the right endpoint of its
final bracket, for ascending and descending refinement alike; in
`find_altitude_crossings` the reported instant is the right endpoint of the
final bracket whenever the final right value is ≥ 0 — which holds whenever
the bracket entered bisection with right value ≥ 0, i.e. for every rising
bracket — and is the left endpoint otherwise. -/
theorem c5_report_endpoint :
    (∀ (alt : ℚ → ℚ) (target tolS : ℚ) (ascending : Bool) (fuel : ℕ) (l r : ℚ),
      refine_crossing_time alt target tolS ascending fuel l r =
        (refineBracket alt target (tolS / 86400) ascending fuel l r).2) ∧
    (∀ (alt : ℚ → ℚ) (target tolDays : ℚ) (fuel : ℕ) (s : BState), 0 ≤ s.rv →
      facCrossingTime (facBisect alt target tolDays fuel s) =
        (facBisect alt target tolDays fuel s).r) := by
  constructor
  · intro alt target tolS ascending fuel l r
    exact refineGo_eq_refineBracket alt target (tolS / 86400) ascending fuel l r
  · intro alt target tolDays fuel s hs
    rw [facCrossingTime, if_pos (facBisect_rv_nonneg alt target tolDays fuel s hs)]

/-- Witness for C5's amended theorem at a concrete rising bracket. -/
theorem c5_report_endpoint_witness :
    (0 : ℚ) ≤ (BState.mk 0 (-1) 1 2).rv ∧
    facCrossingTime (facBisect (fun t => t) 0 (1/2) 3 (BState.mk 0 (-1) 1 2)) =
      (facBisect (fun t => t) 0 (1/2) 3 (BState.mk 0 (-1) 1 2)).r :=
  ⟨by norm_num, c5_report_endpoint.2 (fun t => t) 0 (1/2) 3 (BState.mk 0 (-1) 1 2)
    (by norm_num)⟩

theorem moonsetSearch_daily_ok (alt : ℚ → ℚ) (midday target tolS : ℚ) (fuel : ℕ) :
    ∃ v, moonsetSearch alt target tolS fuel (dailyTimes midday)
      (((dailyTimes midday).map alt).map (fun a => a - target))
      (npArgmax ((dailyTimes midday).map alt)) = Except.ok v := by
  simp only [moonsetSearch]
  rcases hfi : firstIdxSat (fun x => decide (x ≤ 0))
      ((((dailyTimes midday).map alt).map (fun a => a - target)).drop
        (npArgmax ((dailyTimes midday).map alt))) with _ | relIdx
  · exact ⟨none, rfl⟩
  · dsimp only
    by_cases hrel : relIdx = 0
    · subst hrel
      exact ⟨none, by rw [if_pos rfl]⟩
    · rw [if_neg hrel]
      obtain ⟨hlt, hsat, hmin⟩ := firstIdxSat_some_spec _ _ _ hfi
      have hj := hmin (relIdx - 1) (by omega)
      rw [getD_drop] at hj
      have hevlen : relIdx < 241 - npArgmax ((dailyTimes midday).map alt) := by
        rwa [List.length_drop, sunDiffs_length] at hlt
      have hidx : npArgmax ((dailyTimes midday).map alt) + (relIdx - 1) < 241 := by
        omega
      rw [sunDiffs_getD alt midday target _ hidx] at hj
      have hjval : 0 < alt ((dailyTimes midday).getD
          (npArgmax ((dailyTimes midday).map alt) + (relIdx - 1)) 0) - target := by
        have hnle := of_decide_eq_false hj
        linarith [not_le.mp hnle]
      have habs : npArgmax ((dailyTimes midday).map alt) + relIdx - 1 =
          npArgmax ((dailyTimes midday).map alt) + (relIdx - 1) := by omega
      rw [habs, if_neg (by linarith : ¬ alt ((dailyTimes midday).getD
        (npArgmax ((dailyTimes midday).map alt) + (relIdx - 1)) 0) - target < 0)]
      split
      · exact ⟨none, rfl⟩
      · exact ⟨_, rfl⟩

/-- C6: whenever altitude − target has the same strict sign at every coarse
sample of the respective search window (body permanently above target or
permanently below it for the whole window), the result is a null value and
not an exception: sunrise and sunset return `none`, and
`find_altitude_crossings` returns the empty list. -/
theorem c6_constant_sign_null (alt : ℚ → ℚ)
    (midday startJd endJd target stepS tolS : ℚ) (fuel : ℕ)
    (hDaily : (∀ t ∈ dailyTimes midday, 0 < alt t - target) ∨
      (∀ t ∈ dailyTimes midday, alt t - target < 0))
    (hFac : (∀ t ∈ facGrid startJd endJd stepS, 0 < alt t - target) ∨
      (∀ t ∈ facGrid startJd endJd stepS, alt t - target < 0))
    (hw : startJd ≤ endJd) (hs : 0 < stepS) :
    sunrise alt midday target tolS fuel = none ∧
    sunset alt midday target tolS fuel = none ∧
    find_altitude_crossings alt startJd endJd target stepS tolS fuel =
      Except.ok [] := by
  refine ⟨?_, ?_, ?_⟩
  · rw [sunrise_eq_riseSearch]
    rcases hDaily with hpos | hneg
    · exact riseSearch_daily_none_of_head_pos alt midday target tolS fuel
        (hpos _ (getD_mem_of_lt _ 0 (by rw [dailyTimes_length]; norm_num) 0))
    · exact riseSearch_daily_none_of_all_neg alt midday target tolS fuel hneg
  · rw [sunset_eq_setSearch]
    rcases hDaily with hpos | hneg
    · exact setSearch_daily_none_of_all_pos alt midday target tolS fuel hpos
    · exact setSearch_daily_none_of_noon_neg alt midday target tolS fuel
        (hneg _ (getD_mem_of_lt _ _
          (by rw [dailyTimes_length]; exact sunNoon_lt alt midday) 0))
  · have hn : ¬ facNSteps startJd endJd stepS < 0 :=
      not_lt.mpr (facNSteps_nonneg hw hs)
    rw [fac_eq_ok alt startJd endJd target stepS tolS fuel hn]
    have hchanges : facChanges alt startJd endJd target stepS = [] := by
      rw [facChanges]
      apply List.filter_eq_nil_iff.mpr
      intro i hi
      have hi2 := List.mem_range.mp hi
      have hilen : i < (facGrid startJd endJd stepS).length := by omega
      have hi1len : i + 1 < (facGrid startJd endJd stepS).length := by omega
      simp only [decide_eq_true_eq, ne_eq, not_not]
      rw [facSigns_getD alt startJd endJd target stepS _ hi1len,
        facSigns_getD alt startJd endJd target stepS _ hilen,
        facDiffs_getD alt startJd endJd target stepS _ hi1len,
        facDiffs_getD alt startJd endJd target stepS _ hilen]
      rcases hFac with hpos | hneg
      · rw [npSign_of_pos (hpos _ (getD_mem_of_lt _ _ hi1len 0)),
          npSign_of_pos (hpos _ (getD_mem_of_lt _ _ hilen 0))]
      · rw [npSign_of_neg (hneg _ (getD_mem_of_lt _ _ hi1len 0)),
          npSign_of_neg (hneg _ (getD_mem_of_lt _ _ hilen 0))]
    rw [hchanges]
    rfl

/-- Witness for C6 at a body permanently 10° above a 0° target. -/
theorem c6_constant_sign_witness :
    (0:ℚ) ≤ 1 ∧ (0:ℚ) < 300 ∧
    sunrise (fun _ => 10) 0 0 1 5 = none ∧
    sunset (fun _ => 10) 0 0 1 5 = none ∧
    find_altitude_crossings (fun _ => 10) 0 1 0 300 1 5 = Except.ok [] := by
  have h := c6_constant_sign_null (fun _ => 10) 0 0 1 0 300 1 5
    (Or.inl (fun t _ => by norm_num))
    (Or.inl (fun t _ => by norm_num))
    (by norm_num) (by norm_num)
  exact ⟨by norm_num, by norm_num, h.1, h.2.1, h.2.2⟩

/-- C3: on the bracket-widening path the single-day searches (sunrise, sunset,
moonset) step through adjacent coarse samples until a sign change is found or
the window is exhausted, return a null result on exhaustion, and never raise
an exception on this path.  The rise search returns `none` when the candidate
and every earlier sample are above target (window exhausted stepping left);
the set search — which is `sunset`'s body on its grid data — returns `none`
when stepping left, or stepping right, exhausts the window without finding a
sign change; the moonset search returns `Except.ok none` when its step-left
window is exhausted before any step and when stepping right exhausts the
window; and the composed `moonset` always returns a value — its step-left
loop body, which would raise `TypeError` (source line 161), is unreachable
because the left value guarding it equals the coarse diff at `abs_idx - 1`,
strictly positive by minimality of `rel_idx`. -/
theorem c3_widening_null_no_raise :
    (∀ (alt : ℚ → ℚ) (target tolS : ℚ) (fuel : ℕ) (times diffs : List ℚ)
        (noonIdx idx : ℕ),
      firstIdxSat (fun x => decide (0 ≤ x)) (diffs.take (noonIdx + 1)) =
        some idx →
      (∀ j, j ≤ idx → 0 < alt (times.getD j 0) - target) →
      riseSearch alt target tolS fuel times diffs noonIdx = none) ∧
    (∀ (alt : ℚ → ℚ) (midday target tolS : ℚ) (fuel : ℕ),
      0 < alt ((dailyTimes midday).getD 0 0) - target →
      sunrise alt midday target tolS fuel = none) ∧
    (∀ (alt : ℚ → ℚ) (midday target tolS : ℚ) (fuel : ℕ),
      sunset alt midday target tolS fuel =
        setSearch alt target tolS fuel (dailyTimes midday)
          (((dailyTimes midday).map alt).map (fun a => a - target))
          (npArgmax ((dailyTimes midday).map alt))) ∧
    (∀ (alt : ℚ → ℚ) (target tolS : ℚ) (fuel : ℕ) (times diffs : List ℚ)
        (noonIdx relIdx : ℕ),
      firstIdxSat (fun x => decide (x ≤ 0)) (diffs.drop noonIdx) = some relIdx →
      relIdx ≠ 0 →
      (∀ j, j ≤ noonIdx + relIdx - 1 → alt (times.getD j 0) - target < 0) →
      setSearch alt target tolS fuel times diffs noonIdx = none) ∧
    (∀ (alt : ℚ → ℚ) (target tolS : ℚ) (fuel : ℕ) (times diffs : List ℚ)
        (noonIdx relIdx : ℕ),
      firstIdxSat (fun x => decide (x ≤ 0)) (diffs.drop noonIdx) = some relIdx →
      relIdx ≠ 0 →
      ¬ alt (times.getD (noonIdx + relIdx - 1) 0) - target < 0 →
      noonIdx + relIdx < times.length →
      (∀ j, noonIdx + relIdx ≤ j → j < times.length →
        0 < alt (times.getD j 0) - target) →
      setSearch alt target tolS fuel times diffs noonIdx = none) ∧
    (∀ (alt : ℚ → ℚ) (target tolS : ℚ) (fuel : ℕ) (times diffs : List ℚ)
        (noonIdx relIdx : ℕ),
      firstIdxSat (fun x => decide (x ≤ 0)) (diffs.drop noonIdx) = some relIdx →
      relIdx ≠ 0 →
      alt (times.getD (noonIdx + relIdx - 1) 0) - target < 0 →
      noonIdx + relIdx < 2 →
      moonsetSearch alt target tolS fuel times diffs noonIdx = Except.ok none) ∧
    (∀ (alt : ℚ → ℚ) (target tolS : ℚ) (fuel : ℕ) (times diffs : List ℚ)
        (noonIdx relIdx : ℕ),
      firstIdxSat (fun x => decide (x ≤ 0)) (diffs.drop noonIdx) = some relIdx →
      relIdx ≠ 0 →
      ¬ alt (times.getD (noonIdx + relIdx - 1) 0) - target < 0 →
      noonIdx + relIdx < times.length →
      (∀ j, noonIdx + relIdx ≤ j → j < times.length →
        0 < alt (times.getD j 0) - target) →
      moonsetSearch alt target tolS fuel times diffs noonIdx = Except.ok none) ∧
    (∀ (alt : ℚ → ℚ) (midday target tolS : ℚ) (fuel : ℕ),
      moonset alt midday target tolS fuel =
        moonsetSearch alt target tolS fuel (dailyTimes midday)
          (((dailyTimes midday).map alt).map (fun a => a - target))
          (npArgmax ((dailyTimes midday).map alt))) ∧
    (∀ (alt : ℚ → ℚ) (midday target tolS : ℚ) (fuel : ℕ),
      ∃ v, moonset alt midday target tolS fuel = Except.ok v) := by
  refine ⟨?_, ?_, ?_, ?_, ?_, ?_, ?_, ?_, ?_⟩
  · intro alt target tolS fuel times diffs noonIdx idx hfi habove
    exact riseSearch_none_of_left_exhausted alt target tolS fuel times diffs
      noonIdx idx hfi habove
  · intro alt midday target tolS fuel h
    rw [sunrise_eq_riseSearch]
    exact riseSearch_daily_none_of_head_pos alt midday target tolS fuel h
  · intro alt midday target tolS fuel
    exact sunset_eq_setSearch alt midday target tolS fuel
  · intro alt target tolS fuel times diffs noonIdx relIdx hfi hrel hbelow
    exact setSearch_none_of_left_exhausted alt target tolS fuel times diffs
      noonIdx relIdx hfi hrel hbelow
  · intro alt target tolS fuel times diffs noonIdx relIdx hfi hrel hleft hlen habove
    exact setSearch_none_of_right_exhausted alt target tolS fuel times diffs
      noonIdx relIdx hfi hrel hleft hlen habove
  · intro alt target tolS fuel times diffs noonIdx relIdx hfi hrel hneg hsmall
    exact moonsetSearch_none_of_window_exhausted alt target tolS fuel times diffs
      noonIdx relIdx hfi hrel hneg hsmall
  · intro alt target tolS fuel times diffs noonIdx relIdx hfi hrel hleft hlen habove
    exact moonsetSearch_none_of_right_exhausted alt target tolS fuel times diffs
      noonIdx relIdx hfi hrel hleft hlen habove
  · intro alt midday target tolS fuel
    rfl
  · intro alt midday target tolS fuel
    exact moonsetSearch_daily_ok alt midday target tolS fuel

/-- Witness for C3: each widening-exhaustion case exercised at a concrete
input (the search bodies take the grid and diff lists separately, so the
defensive paths are reachable there), plus the composed sunrise and moonset
cases. -/
theorem c3_widening_witness :
    riseSearch (fun t => t) 0 1 3 [2, 9] [1, -1] 1 = none ∧
    sunrise (fun _ => (1:ℚ)) 0 0 1 5 = none ∧
    setSearch (fun t => t) 0 1 2 [-3, 7] [5, -1] 0 = none ∧
    setSearch (fun t => t) 0 1 2 [5, 4, 3] [3, -2, -9] 0 = none ∧
    moonsetSearch (fun t => t) 0 1 2 [-6, 8] [2, -1] 0 = Except.ok none ∧
    moonsetSearch (fun t => t) 0 1 2 [5, 4, 3] [3, -2, -9] 0 = Except.ok none ∧
    ∃ v, moonset (fun _ => (1:ℚ)) 0 0 1 5 = Except.ok v := by
  obtain ⟨h1, h2, _h3, h4, h5, h6, h7, _h8, h9⟩ := c3_widening_null_no_raise
  refine ⟨?_, ?_, ?_, ?_, ?_, ?_, ?_⟩
  · refine h1 (fun t => t) 0 1 3 [2, 9] [1, -1] 1 0 (by norm_num [firstIdxSat]) ?_
    intro j hj
    have hj0 : j = 0 := by omega
    subst hj0
    norm_num
  · exact h2 (fun _ => (1:ℚ)) 0 0 1 5 (by norm_num)
  · refine h4 (fun t => t) 0 1 2 [-3, 7] [5, -1] 0 1 (by norm_num [firstIdxSat])
      (by norm_num) ?_
    intro j hj
    have hj0 : j = 0 := by omega
    subst hj0
    norm_num
  · refine h5 (fun t => t) 0 1 2 [5, 4, 3] [3, -2, -9] 0 1
      (by norm_num [firstIdxSat]) (by norm_num) (by norm_num) (by norm_num) ?_
    intro j h1j h2j
    simp only [List.length_cons, List.length_nil] at h2j
    interval_cases j <;> norm_num
  · exact h6 (fun t => t) 0 1 2 [-6, 8] [2, -1] 0 1 (by norm_num [firstIdxSat])
      (by norm_num) (by norm_num) (by norm_num)
  · refine h7 (fun t => t) 0 1 2 [5, 4, 3] [3, -2, -9] 0 1
      (by norm_num [firstIdxSat]) (by norm_num) (by norm_num) (by norm_num) ?_
    intro j h1j h2j
    simp only [List.length_cons, List.length_nil] at h2j
    interval_cases j <;> norm_num
  · exact h9 (fun _ => (1:ℚ)) 0 0 1 5

theorem facEvent_fst_bounds (alt : ℚ → ℚ) (target tolDays : ℚ) (fuel : ℕ)
    (times diffs : List ℚ) (idx : ℕ)
    (h : times.getD idx 0 ≤ times.getD (idx + 1) 0) :
    times.getD idx 0 ≤ (facEvent alt target tolDays fuel times diffs idx).1 ∧
    (facEvent alt target tolDays fuel times diffs idx).1 ≤ times.getD (idx + 1) 0 := by
  obtain ⟨a, b, c⟩ := facBisect_within alt target tolDays fuel
    ⟨times.getD idx 0, diffs.getD idx 0, times.getD (idx + 1) 0, diffs.getD (idx + 1) 0⟩ h
  have h1 : (facEvent alt target tolDays fuel times diffs idx).1 =
      facCrossingTime (facBisect alt target tolDays fuel
        ⟨times.getD idx 0, diffs.getD idx 0, times.getD (idx + 1) 0,
          diffs.getD (idx + 1) 0⟩) := rfl
  rw [h1, facCrossingTime]
  split
  · exact ⟨le_trans a b, c⟩
  · exact ⟨a, le_trans b c⟩

/-- C7: `find_altitude_crossings` produces exactly one event per adjacent pair
of coarse samples whose `np.sign` of (altitude − target) differ (a zero sample
counts as a sign boundary), and the returned events are in chronological
order of their instants. -/
theorem c7_events_per_pair_sorted (alt : ℚ → ℚ)
    (startJd endJd target stepS tolS : ℚ) (fuel : ℕ) (evs : List (ℚ × Direction))
    (hw : startJd ≤ endJd) (hs : 0 < stepS)
    (hok : find_altitude_crossings alt startJd endJd target stepS tolS fuel =
      Except.ok evs) :
    evs.length = ((List.range ((facGrid startJd endJd stepS).length - 1)).filter
      (fun i => decide
        (npSign (alt ((facGrid startJd endJd stepS).getD (i + 1) 0) - target) ≠
          npSign (alt ((facGrid startJd endJd stepS).getD i 0) - target)))).length ∧
    evs.Pairwise (fun a b => a.1 ≤ b.1) := by
  have hn : ¬ facNSteps startJd endJd stepS < 0 := not_lt.mpr (facNSteps_nonneg hw hs)
  rw [fac_eq_ok alt startJd endJd target stepS tolS fuel hn] at hok
  injection hok with hok
  subst hok
  constructor
  · rw [List.length_map, facChanges]
    have hcongr : ∀ i ∈ List.range ((facGrid startJd endJd stepS).length - 1),
        (decide ((facSigns alt startJd endJd target stepS).getD (i + 1) 0 ≠
          (facSigns alt startJd endJd target stepS).getD i 0)) =
        (decide
          (npSign (alt ((facGrid startJd endJd stepS).getD (i + 1) 0) - target) ≠
            npSign (alt ((facGrid startJd endJd stepS).getD i 0) - target))) := by
      intro i hi
      have hi2 := List.mem_range.mp hi
      have hilen : i < (facGrid startJd endJd stepS).length := by omega
      have hi1len : i + 1 < (facGrid startJd endJd stepS).length := by omega
      rw [facSigns_getD alt startJd endJd target stepS _ hi1len,
        facSigns_getD alt startJd endJd target stepS _ hilen,
        facDiffs_getD alt startJd endJd target stepS _ hi1len,
        facDiffs_getD alt startJd endJd target stepS _ hilen]
    rw [List.filter_congr hcongr]
  · rw [List.pairwise_map]
    have hch : (facChanges alt startJd endJd target stepS).Pairwise (· < ·) :=
      List.Pairwise.sublist (List.filter_sublist _)
        (List.pairwise_lt_range _)
    apply List.Pairwise.imp_of_mem _ hch
    intro i j hi hj hij
    have hibound : i < (facGrid startJd endJd stepS).length - 1 :=
      List.mem_range.mp (List.mem_of_mem_filter hi)
    have hjbound : j < (facGrid startJd endJd stepS).length - 1 :=
      List.mem_range.mp (List.mem_of_mem_filter hj)
    have hlen : j + 1 < (facGrid startJd endJd stepS).length := by omega
    have hbi := facEvent_fst_bounds alt target (tolS / 86400) fuel
      (facGrid startJd endJd stepS) (facDiffs alt startJd endJd target stepS) i
      (facGrid_getD_mono hw (by omega) (by omega))
    have hbj := facEvent_fst_bounds alt target (tolS / 86400) fuel
      (facGrid startJd endJd stepS) (facDiffs alt startJd endJd target stepS) j
      (facGrid_getD_mono hw (by omega) hlen)
    have hmid : (facGrid startJd endJd stepS).getD (i + 1) 0 ≤
        (facGrid startJd endJd stepS).getD j 0 :=
      facGrid_getD_mono hw (by omega) (by omega)
    exact le_trans hbi.2 (le_trans hmid hbj.1)

/-- C8: every event returned by `find_altitude_crossings` has its direction
determined by sampling the altitude one minute (1/1440 day) before and after
the crossing instant: increasing altitude gives 'rise', otherwise 'set'. -/
theorem c8_direction_slope (alt : ℚ → ℚ)
    (startJd endJd target stepS tolS : ℚ) (fuel : ℕ) (evs : List (ℚ × Direction))
    (hok : find_altitude_crossings alt startJd endJd target stepS tolS fuel =
      Except.ok evs) :
    ∀ ev ∈ evs, ev.2 =
      (if 0 < alt (ev.1 + 1/1440) - alt (ev.1 - 1/1440)
        then Direction.rise else Direction.set) := by
  by_cases hn : facNSteps startJd endJd stepS < 0
  · rw [find_altitude_crossings, if_pos hn] at hok
    exact absurd hok (by simp)
  · rw [fac_eq_ok alt startJd endJd target stepS tolS fuel hn] at hok
    injection hok with hok
    subst hok
    intro ev hev
    obtain ⟨idx, hidx, rfl⟩ := List.mem_map.mp hev
    rfl

theorem facGrid_unit_day : facGrid 0 1 86400 = [0, 1] := by
  have hn : facNSteps 0 1 86400 = 2 := by
    norm_num [facNSteps, facDurationS]
  rw [facGrid, hn]
  norm_num [linspace, facDurationS, List.range_succ, show Int.toNat 2 = 2 from rfl]

theorem fac_eval_identity_example :
    find_altitude_crossings (fun t => t) 0 1 (1/2) 86400 21600 4 =
      Except.ok [(1/2, Direction.rise)] := by
  have hn : facNSteps 0 1 86400 = 2 := by
    norm_num [facNSteps, facDurationS]
  have hd : facDiffs (fun t => t) 0 1 (1/2) 86400 = [-(1/2), 1/2] := by
    rw [facDiffs, facGrid_unit_day]
    norm_num
  have hsg : facSigns (fun t => t) 0 1 (1/2) 86400 = [-1, 1] := by
    rw [facSigns, hd]
    norm_num [npSign]
  have hc : facChanges (fun t => t) 0 1 (1/2) 86400 = [0] := by
    rw [facChanges, facGrid_unit_day, hsg]
    norm_num [List.range_succ]
  have hev : facEvent (fun t => t) (1/2) (21600/86400) 4 [0, 1] [-(1/2), 1/2] 0 =
      (1/2, Direction.rise) := by
    norm_num [facEvent, facBisect, facCrossingTime, List.getD_cons_zero,
      List.getD_cons_succ]
  rw [fac_eq_ok _ _ _ _ _ _ _ (by rw [hn]; norm_num), hc, facGrid_unit_day, hd]
  simp only [List.map_cons, List.map_nil, hev]

/-- C1 (failing input): for the monotone-decreasing altitude `1 - 4t` crossing
target 0 at the unique instant `t = 1/4`, with bracket `[0, 1]` and tolerance
`10800 s = 1/8 day`, `find_altitude_crossings` reports the crossing at `7/8`,
which is not within the tolerance of the true crossing `1/4`: its bisection
loop uses the rising-bracket update rule on the setting bracket and loses the
sign change. -/
theorem c1_set_bracket_misses_crossing :
    find_altitude_crossings (fun t => 1 - 4*t) 0 1 0 86400 10800 4 =
      Except.ok [(7/8, Direction.set)] ∧
    (fun t : ℚ => 1 - 4*t) (1/4) - 0 = 0 ∧
    ¬ (|(7:ℚ)/8 - 1/4| ≤ 10800/86400) := by
  refine ⟨?_, by norm_num, ?_⟩
  · have hn : facNSteps 0 1 86400 = 2 := by
      norm_num [facNSteps, facDurationS]
    have hd : facDiffs (fun t => 1 - 4*t) 0 1 0 86400 = [1, -3] := by
      rw [facDiffs, facGrid_unit_day]
      norm_num
    have hsg : facSigns (fun t => 1 - 4*t) 0 1 0 86400 = [1, -1] := by
      rw [facSigns, hd]
      norm_num [npSign]
    have hc : facChanges (fun t => 1 - 4*t) 0 1 0 86400 = [0] := by
      rw [facChanges, facGrid_unit_day, hsg]
      norm_num [List.range_succ]
    have hev : facEvent (fun t => 1 - 4*t) 0 (10800/86400) 4 [0, 1] [1, -3] 0 =
        (7/8, Direction.set) := by
      norm_num [facEvent, facBisect, facCrossingTime, List.getD_cons_zero,
        List.getD_cons_succ]
    rw [fac_eq_ok _ _ _ _ _ _ _ (by rw [hn]; norm_num), hc, facGrid_unit_day, hd]
    simp only [List.map_cons, List.map_nil, hev]
  · rw [abs_of_nonneg (by norm_num : (0:ℚ) ≤ 7/8 - 1/4)]
    norm_num

/-- C2 (failing input): starting from the genuine setting bracket
`(l, lv, r, rv) = (0, 1, 1, -3)` of the altitude `1 - 4t` against target 0
(opposite strict signs), one iteration of `find_altitude_crossings`' bisection
loop with tolerance 1/8 day produces the state `(1/2, -1, 1, -3)`, whose two
values are both negative: the bracket invariant is not maintained. -/
theorem c2_bracket_invariant_broken :
    (fun t : ℚ => 1 - 4*t) 0 - 0 = 1 ∧
    (fun t : ℚ => 1 - 4*t) 1 - 0 = -3 ∧
    0 < (BState.mk 0 1 1 (-3)).lv ∧ (BState.mk 0 1 1 (-3)).rv < 0 ∧
    facBisect (fun t => 1 - 4*t) 0 (1/8) 1 (BState.mk 0 1 1 (-3)) =
      BState.mk (1/2) (-1) 1 (-3) ∧
    (BState.mk (1/2) (-1) 1 (-3)).lv < 0 ∧
    (BState.mk (1/2) (-1) 1 (-3)).rv < 0 := by
  refine ⟨by norm_num, by norm_num, by norm_num, by norm_num, ?_, by norm_num,
    by norm_num⟩
  norm_num [facBisect]

/-- C4 (counterexample): called with tolerance `0 ≤ 0` and window
`end_time = start_time ≤ start_time`, `find_altitude_crossings` does not raise
an InputError — it samples a one-point grid and returns the empty list. -/
theorem c4_no_input_error_counterexample :
    find_altitude_crossings (fun _ => 1) 0 0 0 300 0 4 = Except.ok [] := by
  have hn : facNSteps 0 0 300 = 1 := by
    norm_num [facNSteps, facDurationS]
  rw [fac_eq_ok _ _ _ _ _ _ _ (by rw [hn]; norm_num)]
  have hc : facChanges (fun _ => (1:ℚ)) 0 0 0 300 = [] := by
    rw [facChanges, facGrid_length, hn]
    norm_num [show Int.toNat 1 = 1 from rfl]
  rw [hc]
  rfl

/-- C4 (amended): `find_altitude_crossings` performs no input validation and
never raises an InputError.  With `end_time = start_time` (even with
tolerance ≤ 0) it samples a one-point grid and returns the empty list rather
than raising; a coarse step larger than a positive window is not rejected —
the function samples exactly the two-point grid `[start, end]` and proceeds,
returning the empty list when those two samples have equal `np.sign`; and
tolerance ≤ 0 is not rejected before sampling either: instead the bisection
loop's exit condition can never become true — after any number of iterations
the bracket width still exceeds the tolerance, so on a bracket with a sign
change the source loops rather than raising. -/
theorem c4_no_validation (alt : ℚ → ℚ) (startJd target stepS tolS : ℚ)
    (fuel : ℕ) :
    find_altitude_crossings alt startJd startJd target stepS tolS fuel =
      Except.ok [] ∧
    (∀ endJd, startJd < endJd → facDurationS startJd endJd < stepS →
      facGrid startJd endJd stepS = [startJd, endJd]) ∧
    (∀ endJd, startJd < endJd → facDurationS startJd endJd < stepS →
      npSign (alt endJd - target) = npSign (alt startJd - target) →
      find_altitude_crossings alt startJd endJd target stepS tolS fuel =
        Except.ok []) ∧
    (∀ (fuel2 : ℕ) (s : BState), tolS ≤ 0 → s.l < s.r →
      tolS / 86400 < (facBisect alt target (tolS / 86400) fuel2 s).r -
        (facBisect alt target (tolS / 86400) fuel2 s).l) := by
  refine ⟨?_, ?_, ?_, ?_⟩
  · have hn : facNSteps startJd startJd stepS = 1 := by
      rw [facNSteps, facDurationS]
      norm_num
    rw [fac_eq_ok _ _ _ _ _ _ _ (by rw [hn]; norm_num)]
    have hc : facChanges alt startJd startJd target stepS = [] := by
      rw [facChanges, facGrid_length, hn]
      norm_num [show Int.toNat 1 = 1 from rfl]
    rw [hc]
    rfl
  · intro endJd hlt hstep
    exact facGrid_pair hlt hstep
  · intro endJd hlt hstep hsign
    have hn2 : facNSteps startJd endJd stepS = 2 := facNSteps_eq_two hlt hstep
    rw [fac_eq_ok _ _ _ _ _ _ _ (by rw [hn2]; norm_num)]
    have hlen2 : (facGrid startJd endJd stepS).length = 2 := by
      rw [facGrid_pair hlt hstep]
      rfl
    have hc : facChanges alt startJd endJd target stepS = [] := by
      rw [facChanges]
      apply List.filter_eq_nil_iff.mpr
      intro i hi
      have hi0 : i = 0 := by
        have := List.mem_range.mp hi
        omega
      subst hi0
      simp only [decide_eq_true_eq, ne_eq, not_not]
      rw [facSigns_getD alt startJd endJd target stepS _ (by omega),
        facSigns_getD alt startJd endJd target stepS _ (by omega),
        facDiffs_getD alt startJd endJd target stepS _ (by omega),
        facDiffs_getD alt startJd endJd target stepS _ (by omega),
        facGrid_pair hlt hstep]
      simpa using hsign
    rw [hc]
    rfl
  · intro fuel2 s htol hlr
    have hdiv : tolS / 86400 ≤ 0 := by
      rw [div_nonpos_iff]
      right
      exact ⟨htol, by norm_num⟩
    have := facBisect_width_pos alt target (tolS / 86400) fuel2 s hlr
    linarith

/-- Witness for C4's amended theorem: tolerance −1 and an empty window are
accepted and produce the empty list; a 2-second window with a 500-second step
samples the two-point grid and returns normally; and with tolerance −1 the
bisection bracket width stays above the tolerance after any iterations. -/
theorem c4_no_validation_witness :
    find_altitude_crossings (fun _ => 2) 5 5 0 500 (-1) 3 = Except.ok [] ∧
    facGrid 5 (5 + 1/43200) 500 = [5, 5 + 1/43200] ∧
    find_altitude_crossings (fun _ => 2) 5 (5 + 1/43200) 0 500 (-1) 3 =
      Except.ok [] ∧
    ((-1:ℚ) ≤ 0 ∧ (BState.mk 0 1 1 (-1)).l < (BState.mk 0 1 1 (-1)).r ∧
      (-1:ℚ) / 86400 <
        (facBisect (fun _ => 2) 0 ((-1) / 86400) 7 (BState.mk 0 1 1 (-1))).r -
          (facBisect (fun _ => 2) 0 ((-1) / 86400) 7 (BState.mk 0 1 1 (-1))).l) := by
  obtain ⟨h1, h2, h3, h4⟩ := c4_no_validation (fun _ => 2) 5 0 500 (-1) 3
  refine ⟨h1, ?_, ?_, by norm_num, by norm_num, ?_⟩
  · exact h2 (5 + 1/43200) (by norm_num) (by norm_num [facDurationS])
  · exact h3 (5 + 1/43200) (by norm_num) (by norm_num [facDurationS]) rfl
  · exact h4 7 (BState.mk 0 1 1 (-1)) (by norm_num) (by norm_num)

/-- C5 (counterexample): on the genuine setting bracket `(0, 1, 1, -3)` of the
altitude `1 - 4t` against target 0 with tolerance 1/8 day, the final bracket
of `find_altitude_crossings`' bisection is `(7/8, 1)` with right value −3, and
the reported crossing instant is the LEFT endpoint `7/8`, not the right
endpoint `1`. -/
theorem c5_left_endpoint_counterexample :
    0 < (BState.mk 0 1 1 (-3)).lv ∧ (BState.mk 0 1 1 (-3)).rv < 0 ∧
    facBisect (fun t => 1 - 4*t) 0 (1/8) 4 (BState.mk 0 1 1 (-3)) =
      BState.mk (7/8) (-(5/2)) 1 (-3) ∧
    facCrossingTime (facBisect (fun t => 1 - 4*t) 0 (1/8) 4 (BState.mk 0 1 1 (-3))) =
      (facBisect (fun t => 1 - 4*t) 0 (1/8) 4 (BState.mk 0 1 1 (-3))).l ∧
    (facBisect (fun t => 1 - 4*t) 0 (1/8) 4 (BState.mk 0 1 1 (-3))).l ≠
      (facBisect (fun t => 1 - 4*t) 0 (1/8) 4 (BState.mk 0 1 1 (-3))).r := by
  have hb : facBisect (fun t => 1 - 4*t) 0 (1/8) 4 (BState.mk 0 1 1 (-3)) =
      BState.mk (7/8) (-(5/2)) 1 (-3) := by
    norm_num [facBisect]
  refine ⟨by norm_num, by norm_num, hb, ?_, ?_⟩
  · rw [hb]
    norm_num [facCrossingTime]
  · rw [hb]
    norm_num

/-- Witness for C7 on a concrete ascending crossing of the identity altitude
through target 1/2 over the window [0, 1] day. -/
theorem c7_events_witness :
    (0:ℚ) ≤ 1 ∧ (0:ℚ) < 86400 ∧
    find_altitude_crossings (fun t => t) 0 1 (1/2) 86400 21600 4 =
      Except.ok [(1/2, Direction.rise)] ∧
    ([((1:ℚ)/2, Direction.rise)] : List (ℚ × Direction)).length =
      ((List.range ((facGrid 0 1 86400).length - 1)).filter
        (fun i => decide
          (npSign ((fun t : ℚ => t) ((facGrid 0 1 86400).getD (i + 1) 0) - 1/2) ≠
            npSign ((fun t : ℚ => t) ((facGrid 0 1 86400).getD i 0) - 1/2)))).length ∧
    List.Pairwise (fun a b : ℚ × Direction => a.1 ≤ b.1)
      [((1:ℚ)/2, Direction.rise)] := by
  have hok := fac_eval_identity_example
  have h := c7_events_per_pair_sorted (fun t => t) 0 1 (1/2) 86400 21600 4 _
    (by norm_num) (by norm_num) hok
  exact ⟨by norm_num, by norm_num, hok, h.1, h.2⟩

/-- Witness for C8 on the same concrete ascending crossing. -/
theorem c8_direction_witness :
    find_altitude_crossings (fun t => t) 0 1 (1/2) 86400 21600 4 =
      Except.ok [(1/2, Direction.rise)] ∧
    ((1:ℚ)/2, Direction.rise).2 =
      (if 0 < (fun t : ℚ => t) (((1:ℚ)/2, Direction.rise).1 + 1/1440) -
          (fun t : ℚ => t) (((1:ℚ)/2, Direction.rise).1 - 1/1440)
        then Direction.rise else Direction.set) := by
  have hok := fac_eval_identity_example
  exact ⟨hok, c8_direction_slope (fun t => t) 0 1 (1/2) 86400 21600 4 _ hok
    ((1:ℚ)/2, Direction.rise) (by simp)⟩

end RiseSet
